import Mathlib

/-!
A verification development for `src/merge.py` of err-github-merger: an Errbot
plugin that merges a reviewed GitHub branch into the `develop` integration
branch through an ordered sequence of git subprocess invocations.

The embedding models the external world as oracles: `Env` tells, for every
external command, whether it exits 0 and what its combined output text is;
`SetupEnv` additionally carries the filesystem-level behaviour of
`os.makedirs` and `git clone`.  Each translated function returns its Python
result (or the exception it raises) in `Except`, paired with the `Trace` of
external commands it executed, in order.
-/

namespace ErrGithubMerger

/-- An external command invocation: the argument vector plus the working
directory, as passed to `subprocess.run(args, cwd=cwd)` in
`Merge.run_subprocess` (merge.py:222-232). -/
structure Cmd where
  args : List String
  cwd : String
deriving DecidableEq

/-- The ordered list of external commands a code path has executed. -/
abbrev Trace := List Cmd

/-- The exceptions the code paths of merge.py can raise. -/
inductive Err where
  /-- `subprocess.CalledProcessError`: the command exited non-zero and
  `run_subprocess` passes `check=True`. -/
  | calledProcessError : Cmd → Err
  /-- `errbot.ValidationException` carrying its message. -/
  | validationException : String → Err
  /-- a failed `assert` statement. -/
  | assertionError : Err
  /-- `OSError` with the given errno. -/
  | osError : Nat → Err
  /-- `KeyError` escaping a dictionary lookup. -/
  | keyError : String → Err
  /-- `AttributeError`, e.g. calling `.items()` on a non-dict. -/
  | attributeError : String → Err
deriving DecidableEq

/-- The external world as the plugin observes it through `subprocess.run`:
for each command, whether it exits 0, and its combined stdout+stderr text
(stderr is folded into stdout by `run_subprocess`). -/
structure Env where
  exit : Cmd → Bool
  output : Cmd → String

/-- `Merge.run_subprocess` (merge.py:222-232): run the command synchronously
with `check=True`, so a non-zero exit raises `CalledProcessError`; on success
the completed process carries the combined output text.  The trace records
the single invocation. -/
def run_subprocess (env : Env) (args : List String) (cwd : String) :
    Except Err String × Trace :=
  let c : Cmd := ⟨args, cwd⟩
  (if env.exit c then Except.ok (env.output c) else Except.error (Err.calledProcessError c), [c])

/-- The `for argv in [...]: Merge.run_subprocess(["git"] + argv, cwd=...)`
loop pattern shared by `validate_branch` (merge.py:136-144) and
`git_merge_branch_to_develop` (merge.py:165-180): run each git command in
order, with `run_subprocess` inlined; the first non-zero exit raises and
stops the loop. -/
def runGitSeq (env : Env) (cwd : String) : List (List String) → Except Err Unit × Trace
  | [] => (Except.ok (), [])
  | argv :: rest =>
    let c : Cmd := ⟨"git" :: argv, cwd⟩
    if env.exit c then
      let p := runGitSeq env cwd rest
      (p.1, c :: p.2)
    else (Except.error (Err.calledProcessError c), [c])

/-- The list of commands `runGitSeq` executes when nothing fails. -/
def gitCmds (cwd : String) (argvs : List (List String)) : Trace :=
  argvs.map (fun argv => (⟨"git" :: argv, cwd⟩ : Cmd))

/-- The configuration of the plugin, shaped as in
`Merge.get_configuration_template` (merge.py:50-60): the clone root, the
forbidden branch names, and the configured projects as a list of
(name, repository url) pairs. -/
structure Config where
  repos_root : String
  forbidden_branches : List String
  projects : List (String × String)

/-- `Merge.get_project_root` (merge.py:123-125): plain string concatenation
of `REPOS_ROOT` and the project name, with no separator inserted. -/
def get_project_root (cfg : Config) (project_name : String) : String :=
  cfg.repos_root ++ project_name

/-- `Merge.validate_branch` (merge.py:127-148): reject a forbidden branch
name before running any command; otherwise `git fetch -p` and then
`git rev-parse --verify origin/<branch>`, converting a `CalledProcessError`
from either into a `ValidationException` naming the branch. -/
def validate_branch (env : Env) (cfg : Config) (branch_name project_root : String) :
    Except Err Unit × Trace :=
  if branch_name ∈ cfg.forbidden_branches then
    (Except.error (Err.validationException
      (String.intercalate ", " cfg.forbidden_branches
        ++ " are forbidden choices for --branch-name.")), [])
  else
    match runGitSeq env project_root
        [["fetch", "-p"], ["rev-parse", "--verify", "origin/" ++ branch_name]] with
    | (Except.error (Err.calledProcessError _), t) =>
      (Except.error (Err.validationException (branch_name ++ " is not a valid branch name.")), t)
    | (r, t) => (r, t)

/-- The argument vectors of `Merge.git_merge_branch_to_develop`
(merge.py:165-175), in source order (each is run as `["git"] + argv`). -/
def git_merge_argvs (branch_name author invoking_user : String) : List (List String) :=
  [["fetch", "-p"],
   ["checkout", "-B", "develop", "origin/develop"],
   ["merge", "--no-ff",
    "-m", "Merge " ++ branch_name ++ " to develop",
    "-m", "Branch merged by " ++ invoking_user ++ ".",
    "origin/" ++ branch_name],
   ["commit", "--no-edit", "--amend", "--author=" ++ author],
   ["push", "origin", "develop"]]

/-- `Merge.git_merge_branch_to_develop` (merge.py:151-180). -/
def git_merge_branch_to_develop (env : Env)
    (project_root branch_name author invoking_user : String) : Except Err Unit × Trace :=
  runGitSeq env project_root (git_merge_argvs branch_name author invoking_user)

/-- `Merge.git_push_develop_to_origin` (merge.py:182-188). -/
def git_push_develop_to_origin (env : Env) (project_root : String) :
    Except Err String × Trace :=
  run_subprocess env ["git", "push", "origin", "develop"] project_root

/-- `Merge.git_delete_branch` (merge.py:190-195). -/
def git_delete_branch (env : Env) (project_root branch_name : String) :
    Except Err String × Trace :=
  run_subprocess env ["git", "push", "origin", "--delete", branch_name] project_root

/-- Python `str.strip()` with no argument: drop leading and trailing
whitespace.  Modelled at the character level so it evaluates inside the
kernel. -/
def pyStrip (s : String) : String :=
  String.mk (((s.data.dropWhile Char.isWhitespace).reverse.dropWhile Char.isWhitespace).reverse)

/-- Python `str.split(sep)` for a one-character separator: the empty string
splits into one empty field, a trailing separator yields a trailing empty
field, and the result always has (number of separators + 1) fields. -/
def pySplit (sep : Char) : List Char → List (List Char)
  | [] => [[]]
  | c :: rest =>
    let r := pySplit sep rest
    if c == sep then [] :: r
    else
      match r with
      | h :: t => (c :: h) :: t
      | [] => [[c]]

/-- The `--format` argument built at merge.py:211.  The double quotes are
part of the string itself: `subprocess.run` receives an argument list and
starts no shell, so nothing ever strips them. -/
def for_each_ref_format : String := "--format=\"%(authorname) %(authoremail)\""

/-- The `git for-each-ref` argument vector of merge.py:209-216. -/
def for_each_ref_argv (branch_name : String) : List String :=
  ["git", "for-each-ref", for_each_ref_format, "refs/remotes/origin/" ++ branch_name]

/-- `Merge.git_get_branch_author` (merge.py:197-220), with `run_subprocess`
inlined: a pruning fetch, then `git for-each-ref` on the remote-tracking ref
of the branch; the stripped output must be exactly one line and non-empty
(the `assert` at merge.py:219), otherwise an `AssertionError` is raised. -/
def git_get_branch_author (env : Env) (project_root branch_name : String) :
    Except Err String × Trace :=
  let fetchCmd : Cmd := ⟨["git", "fetch", "-p"], project_root⟩
  let refCmd : Cmd := ⟨for_each_ref_argv branch_name, project_root⟩
  if env.exit fetchCmd then
    if env.exit refCmd then
      let author := pyStrip (env.output refCmd)
      if (pySplit '\n' author.data).length = 1 ∧ author.length ≠ 0 then
        (Except.ok author, [fetchCmd, refCmd])
      else (Except.error Err.assertionError, [fetchCmd, refCmd])
    else (Except.error (Err.calledProcessError refCmd), [fetchCmd, refCmd])
  else (Except.error (Err.calledProcessError fetchCmd), [fetchCmd])

/-- The three orchestration calls on the success path of `Merge.merge`
(merge.py:109-111): the merge-to-develop sequence, the extra push of
`develop`, and the deletion of the merged branch; any uncaught failure
aborts the calls after it. -/
def orchestrate (env : Env) (project_root branch_name author invoking_user : String) :
    Except Err Unit × Trace :=
  match git_merge_branch_to_develop env project_root branch_name author invoking_user with
  | (Except.error e, t) => (Except.error e, t)
  | (Except.ok _, t1) =>
    match git_push_develop_to_origin env project_root with
    | (Except.error e, t2) => (Except.error e, t1 ++ t2)
    | (Except.ok _, t2) =>
      match git_delete_branch env project_root branch_name with
      | (Except.error e, t3) => (Except.error e, t1 ++ t2 ++ t3)
      | (Except.ok _, t3) => (Except.ok (), t1 ++ t2 ++ t3)

/-- The chat card `Merge.merge` sends back: a red failure card with a body
(merge.py:100-104) or a green success card with a summary and labelled
fields (merge.py:113-121). -/
inductive Card where
  | red : String → Card
  | green : String → List (String × String) → Card
deriving DecidableEq

/-- `Merge.merge` (merge.py:82-121): resolve the project root, validate the
branch — a `ValidationException` is caught and answered with a red card —
then, with no exception handling (the TODO at merge.py:106), resolve the
author and run the three orchestration calls; success sends a green card. -/
def merge (env : Env) (cfg : Config) (project_name branch_name invoking_user : String) :
    Except Err Card × Trace :=
  let project_root := get_project_root cfg project_name
  match validate_branch env cfg branch_name project_root with
  | (Except.error (Err.validationException _), t) =>
    (Except.ok (Card.red (branch_name ++ " is not a valid branch choice.")), t)
  | (Except.error e, t) => (Except.error e, t)
  | (Except.ok _, tv) =>
    match git_get_branch_author env project_root branch_name with
    | (Except.error e, ta) => (Except.error e, tv ++ ta)
    | (Except.ok author, ta) =>
      match orchestrate env project_root branch_name author invoking_user with
      | (Except.error e, tw) => (Except.error e, tv ++ ta ++ tw)
      | (Except.ok _, tw) =>
        (Except.ok (Card.green
          ("I was able to complete the " ++ project_name ++ " merge for you.")
          [("Receiver Branch", "develop"), ("Giver Branch", branch_name)]),
         tv ++ ta ++ tw)

/-- The on-disk state the provisioner consults: the set of existing paths. -/
structure FSState where
  dirs : List String
deriving DecidableEq

/-- `errno.EEXIST`. -/
def EEXIST : Nat := 17

/-- Posix `os.path.join` for two components, as called at merge.py:43:
an absolute second component wins; otherwise a separator is inserted unless
the first component is empty or already ends with one. -/
def os_path_join (a b : String) : String :=
  if b.data.head? = some '/' then b
  else if a = "" ∨ a.data.getLast? = some '/' then a ++ b
  else a ++ "/" ++ b

/-- The environment of `setup_repos`: an injected `os.makedirs` failure
(none when the filesystem is healthy), whether `git clone <url>` exits 0,
and the name of the directory a successful clone of `url` creates inside
its working directory (git derives it from the url). -/
structure SetupEnv where
  mkdirErr : Option Nat
  cloneOk : String → Bool
  cloneDir : String → String

/-- `os.makedirs` as called at merge.py:36: raises `OSError(EEXIST)` when
the directory already exists, raises the injected errno when the OS reports
any other failure, and otherwise creates the directory. -/
def os_makedirs (env : SetupEnv) (fs : FSState) (path : String) : Except Nat FSState :=
  match env.mkdirErr with
  | some e => Except.error e
  | none =>
    if path ∈ fs.dirs then Except.error EEXIST
    else Except.ok ⟨path :: fs.dirs⟩

/-- The `for project_name in self.config["projects"]` loop of merge.py:42-48:
clone each project whose local root `os.path.join(REPOS_ROOT, name)` does
not exist yet; a successful `git clone url` creates the directory
`cloneDir url` inside the working directory. -/
def clone_loop (env : SetupEnv) (root : String) (fs : FSState) :
    List (String × String) → Except Err FSState × Trace
  | [] => (Except.ok fs, [])
  | (name, url) :: rest =>
    if os_path_join root name ∈ fs.dirs then clone_loop env root fs rest
    else
      if env.cloneOk url then
        let p := clone_loop env root ⟨os_path_join root (env.cloneDir url) :: fs.dirs⟩ rest
        (p.1, (⟨["git", "clone", url], root⟩ : Cmd) :: p.2)
      else
        (Except.error (Err.calledProcessError ⟨["git", "clone", url], root⟩),
         [⟨["git", "clone", url], root⟩])

/-- `Merge.setup_repos` (merge.py:33-48): create `REPOS_ROOT`, swallowing
the directory-already-exists error and re-raising any other `OSError`, then
clone every configured project that is missing locally. -/
def setup_repos (env : SetupEnv) (cfg : Config) (fs : FSState) :
    Except Err FSState × Trace :=
  match os_makedirs env fs cfg.repos_root with
  | Except.error e =>
    if e = EEXIST then clone_loop env cfg.repos_root fs cfg.projects
    else (Except.error (Err.osError e), [])
  | Except.ok fs1 => clone_loop env cfg.repos_root fs1 cfg.projects

/-- A Python configuration value as `check_configuration` handles it: a
string, a nested string-keyed dict (kept in insertion order), or a list. -/
inductive Val where
  | str : String → Val
  | vdict : List (String × Val) → Val
  | vlist : List Val → Val

/-- Python `dict.pop(k)`: the removed value and the remaining entries in
order, or none (a `KeyError`) when the key is absent. -/
def popKey (k : String) : List (String × Val) → Option (Val × List (String × Val))
  | [] => none
  | (k2, v) :: rest =>
    if k2 == k then some (v, rest)
    else
      match popKey k rest with
      | some (v2, rest2) => some (v2, (k2, v) :: rest2)
      | none => none

/-- Python `dict[k]` as an Option. -/
def dictGet (k : String) : List (String × Val) → Option Val
  | [] => none
  | (k2, v) :: rest => if k2 == k then some v else dictGet k rest

/-- `Merge.get_configuration_template` (merge.py:50-60). -/
def get_configuration_template : List (String × Val) :=
  [("REPOS_ROOT", Val.str "/home/web/repos/"),
   ("forbidden_branches", Val.vlist [Val.str "master", Val.str "develop"]),
   ("projects", Val.vdict [("some-project", Val.str "git@github.com:netquity/some-project.git")])]

/-- The external `errbot.botplugin.recurse_check_structure` helper
(imported at merge.py:10) is collaborator code outside this repository; it
is modelled as an oracle returning none when the value matches the template
and the message of the raised `ValidationException` otherwise. -/
structure CheckEnv where
  recurse : Val → Val → Option String

/-- The `for k, v in projects_config.items()` loop of merge.py:77-78, with
the template entry for one project passed in (the lookup
`projects_template["some-project"]` is hoisted out of the loop; the template
is a constant, so the lookup cannot fail differently per iteration). -/
def check_projects (env : CheckEnv) (tmpl : Val) : List (String × Val) → Option String
  | [] => none
  | (_, v) :: rest =>
    match env.recurse tmpl v with
    | some msg => some msg
    | none => check_projects env tmpl rest

/-- `Merge.check_configuration` (merge.py:62-80), with the mapping owned by
the caller threaded explicitly: the result pairs the raised exception (or
unit on success) with the final state of the `configuration` dict, which
the code mutates in place via `pop` and `update`. -/
def check_configuration (env : CheckEnv) (configuration : List (String × Val)) :
    Except Err Unit × List (String × Val) :=
  match popKey "projects" get_configuration_template with
  | none =>
    (Except.error (Err.validationException
      "Your configuration must include a projects key with at least one project configured."),
     configuration)
  | some (projects_template, config_template) =>
    match popKey "projects" configuration with
    | none =>
      (Except.error (Err.validationException
        "Your configuration must include a projects key with at least one project configured."),
       configuration)
    | some (projects_config, config_rest) =>
      match env.recurse (Val.vdict config_template) (Val.vdict config_rest) with
      | some msg => (Except.error (Err.validationException msg), config_rest)
      | none =>
        match projects_config with
        | Val.vdict pc =>
          match projects_template with
          | Val.vdict pt =>
            match dictGet "some-project" pt with
            | none => (Except.error (Err.keyError "some-project"), config_rest)
            | some ptmpl =>
              match check_projects env ptmpl pc with
              | some msg => (Except.error (Err.validationException msg), config_rest)
              | none => (Except.ok (), config_rest ++ [("projects", Val.vdict pc)])
          | _ => (Except.error (Err.keyError "some-project"), config_rest)
        | _ => (Except.error (Err.attributeError "items"), config_rest)

/-! ## Generic facts about the git command loop -/

theorem runGitSeq_trace_take (env : Env) (cwd : String) (argvs : List (List String)) :
    (runGitSeq env cwd argvs).2 =
      (gitCmds cwd argvs).take (runGitSeq env cwd argvs).2.length := by
  induction argvs with
  | nil => rfl
  | cons argv rest ih =>
    by_cases h : env.exit ⟨"git" :: argv, cwd⟩ = true
    · simp only [runGitSeq, h, if_true, gitCmds, List.map_cons, List.length_cons,
        List.take_succ_cons]
      exact congrArg _ ih
    · simp [runGitSeq, h, gitCmds]

theorem runGitSeq_dropLast_exit (env : Env) (cwd : String) (argvs : List (List String)) :
    ∀ c ∈ (runGitSeq env cwd argvs).2.dropLast, env.exit c = true := by
  induction argvs with
  | nil => intro c hc; simp [runGitSeq] at hc
  | cons argv rest ih =>
    intro c hc
    by_cases h : env.exit ⟨"git" :: argv, cwd⟩ = true
    · simp only [runGitSeq, h, if_true] at hc
      rcases hp : (runGitSeq env cwd rest).2 with _ | ⟨y, ys⟩
      · rw [hp] at hc; simp at hc
      · rw [hp, List.dropLast_cons₂] at hc
        rcases List.mem_cons.mp hc with rfl | hmem
        · exact h
        · exact ih c (by rw [hp]; exact hmem)
    · simp [runGitSeq, h] at hc

theorem runGitSeq_ok_iff (env : Env) (cwd : String) (argvs : List (List String)) :
    (runGitSeq env cwd argvs).1 = Except.ok () ↔
      ((runGitSeq env cwd argvs).2 = gitCmds cwd argvs
        ∧ ∀ c ∈ (runGitSeq env cwd argvs).2, env.exit c = true) := by
  induction argvs with
  | nil => simp [runGitSeq, gitCmds]
  | cons argv rest ih =>
    by_cases h : env.exit ⟨"git" :: argv, cwd⟩ = true
    · simp only [runGitSeq, h, if_true, gitCmds, List.map_cons]
      simp only [gitCmds] at ih
      simp [List.cons.injEq, List.forall_mem_cons, h, ih]
    · simp [runGitSeq, h, gitCmds, List.forall_mem_cons]

theorem runGitSeq_append (env : Env) (cwd : String) (xs ys : List (List String)) :
    runGitSeq env cwd (xs ++ ys) =
      (match runGitSeq env cwd xs with
       | (Except.error e, t) => (Except.error e, t)
       | (Except.ok _, t) => ((runGitSeq env cwd ys).1, t ++ (runGitSeq env cwd ys).2)) := by
  induction xs with
  | nil => simp [runGitSeq]
  | cons argv rest ih =>
    by_cases h : env.exit ⟨"git" :: argv, cwd⟩ = true
    · simp only [List.cons_append, runGitSeq, h, if_true, List.append_eq]
      rw [ih]
      cases hr : runGitSeq env cwd rest with
      | mk r t => cases r <;> simp
    · simp [List.cons_append, runGitSeq, h]

theorem runGitSeq_all_ok (env : Env) (cwd : String) (argvs : List (List String))
    (h : ∀ c, env.exit c = true) :
    runGitSeq env cwd argvs = (Except.ok (), gitCmds cwd argvs) := by
  induction argvs with
  | nil => rfl
  | cons argv rest ih => simp [runGitSeq, h, gitCmds, ih]

/-- The seven git argument vectors the success path of `Merge.merge` runs
after validation and author resolution (merge.py:109-111): the five of
`git_merge_branch_to_develop`, the push of `git_push_develop_to_origin`,
and the branch deletion of `git_delete_branch`. -/
def merge_sequence_argvs (branch_name author invoking_user : String) : List (List String) :=
  git_merge_argvs branch_name author invoking_user ++
    [["push", "origin", "develop"], ["push", "origin", "--delete", branch_name]]

theorem orchestrate_eq_runGitSeq (env : Env) (root b a u : String) :
    orchestrate env root b a u = runGitSeq env root (merge_sequence_argvs b a u) := by
  unfold merge_sequence_argvs
  rw [runGitSeq_append]
  unfold orchestrate git_merge_branch_to_develop
  cases hm : runGitSeq env root (git_merge_argvs b a u) with
  | mk r t =>
    cases r with
    | error e => rfl
    | ok _ =>
      unfold git_push_develop_to_origin git_delete_branch run_subprocess
      by_cases hp : env.exit ⟨["git", "push", "origin", "develop"], root⟩ = true
      · by_cases hd : env.exit ⟨["git", "push", "origin", "--delete", b], root⟩ = true
        · simp [runGitSeq, hp, hd]
        · simp [runGitSeq, hp, hd]
      · simp [runGitSeq, hp]

/-! ## Claims -/

/-- **C1.** For every merge request, the orchestration sequence run by
`Merge.merge` after validation and author resolution executes its git
commands in the fixed source order — fetch, checkout-track-develop,
merge-no-ff, amend-author, push (twice, see C9), delete-branch: the trace is
always a prefix of that canonical command list (so the steps run in order
and no compensating command ever undoes a completed step), every traced
command except possibly the last one exited 0 (so when step k fails, steps
k+1..n are never invoked), and the run succeeds exactly when the whole
sequence was executed and every command exited 0. -/
theorem orchestrator_ordered_abort (env : Env) (root b a u : String) :
    (orchestrate env root b a u).2 =
        (gitCmds root (merge_sequence_argvs b a u)).take (orchestrate env root b a u).2.length
    ∧ (∀ c ∈ (orchestrate env root b a u).2.dropLast, env.exit c = true)
    ∧ ((orchestrate env root b a u).1 = Except.ok () ↔
        ((orchestrate env root b a u).2 = gitCmds root (merge_sequence_argvs b a u)
          ∧ ∀ c ∈ (orchestrate env root b a u).2, env.exit c = true)) := by
  rw [orchestrate_eq_runGitSeq]
  exact ⟨runGitSeq_trace_take env root (merge_sequence_argvs b a u),
    runGitSeq_dropLast_exit env root (merge_sequence_argvs b a u),
    runGitSeq_ok_iff env root (merge_sequence_argvs b a u)⟩

/-- **C2.** A branch name in the configured forbidden set makes
`validate_branch` raise a `ValidationException` whose message is the
comma-joined list of all forbidden names, with an empty command trace — so
for any environment whatsoever (the branch may or may not exist remotely,
no network access happens); and the surrounding `merge` command then answers
with the red rejection card, still with no git command executed. -/
theorem validate_forbidden_branch (env : Env) (cfg : Config) (b root p u : String)
    (hb : b ∈ cfg.forbidden_branches) :
    validate_branch env cfg b root =
      (Except.error (Err.validationException
        (String.intercalate ", " cfg.forbidden_branches
          ++ " are forbidden choices for --branch-name.")), ([] : Trace))
    ∧ merge env cfg p b u =
        (Except.ok (Card.red (b ++ " is not a valid branch choice.")), ([] : Trace)) := by
  have hval : ∀ r : String, validate_branch env cfg b r =
      (Except.error (Err.validationException
        (String.intercalate ", " cfg.forbidden_branches
          ++ " are forbidden choices for --branch-name.")), ([] : Trace)) := by
    intro r
    simp [validate_branch, hb]
  refine ⟨hval root, ?_⟩
  simp only [merge, hval (get_project_root cfg p)]

/-- An environment in which every command succeeds with empty output. -/
def envAllOk : Env := { exit := fun _ => true, output := fun _ => "" }

/-- A concrete configuration matching the template shape. -/
def cfgDemo : Config :=
  { repos_root := "/home/web/repos/",
    forbidden_branches := ["master", "develop"],
    projects := [("demo", "git@github.com:netquity/demo.git")] }

theorem validate_forbidden_branch_witness :
    validate_branch envAllOk cfgDemo "develop" "/home/web/repos/demo" =
      (Except.error (Err.validationException
        "master, develop are forbidden choices for --branch-name."), ([] : Trace))
    ∧ merge envAllOk cfgDemo "demo" "develop" "Bob" =
        (Except.ok (Card.red "develop is not a valid branch choice."), ([] : Trace)) :=
  validate_forbidden_branch envAllOk cfgDemo "develop" "/home/web/repos/demo" "demo" "Bob"
    (by decide)

/-- **C3.** For a branch name outside the forbidden set, once the pruning
fetch succeeds: if `git rev-parse --verify origin/<branch>` exits non-zero
(the branch cannot be resolved on origin), `validate_branch` raises a
`ValidationException` naming the branch as not a valid branch name; if the
rev-parse succeeds (the branch is present on origin), `validate_branch`
returns without error.  In both cases exactly the fetch and the rev-parse
were executed. -/
theorem validate_remote_existence (env : Env) (cfg : Config) (b root : String)
    (hb : b ∉ cfg.forbidden_branches)
    (hf : env.exit ⟨["git", "fetch", "-p"], root⟩ = true) :
    (env.exit ⟨["git", "rev-parse", "--verify", "origin/" ++ b], root⟩ = false →
      validate_branch env cfg b root =
        (Except.error (Err.validationException (b ++ " is not a valid branch name.")),
         [⟨["git", "fetch", "-p"], root⟩,
          ⟨["git", "rev-parse", "--verify", "origin/" ++ b], root⟩]))
    ∧ (env.exit ⟨["git", "rev-parse", "--verify", "origin/" ++ b], root⟩ = true →
      validate_branch env cfg b root =
        (Except.ok (),
         [⟨["git", "fetch", "-p"], root⟩,
          ⟨["git", "rev-parse", "--verify", "origin/" ++ b], root⟩])) := by
  constructor
  · intro hr
    simp [validate_branch, hb, runGitSeq, hf, hr]
  · intro hr
    simp [validate_branch, hb, runGitSeq, hf, hr]

/-- An environment in which every command succeeds except the remote
verification of the branch named `ghost`. -/
def envNoGhost : Env :=
  { exit := fun c => !(c.args == ["git", "rev-parse", "--verify", "origin/ghost"]),
    output := fun _ => "" }

theorem validate_remote_existence_witness :
    validate_branch envNoGhost cfgDemo "ghost" "/home/web/repos/demo" =
      (Except.error (Err.validationException "ghost is not a valid branch name."),
       [⟨["git", "fetch", "-p"], "/home/web/repos/demo"⟩,
        ⟨["git", "rev-parse", "--verify", "origin/ghost"], "/home/web/repos/demo"⟩])
    ∧ validate_branch envAllOk cfgDemo "feature-1" "/home/web/repos/demo" =
      (Except.ok (),
       [⟨["git", "fetch", "-p"], "/home/web/repos/demo"⟩,
        ⟨["git", "rev-parse", "--verify", "origin/feature-1"], "/home/web/repos/demo"⟩]) := by
  constructor
  · exact (validate_remote_existence envNoGhost cfgDemo "ghost" "/home/web/repos/demo"
      (by decide) (by decide)).1 (by decide)
  · exact (validate_remote_existence envAllOk cfgDemo "feature-1" "/home/web/repos/demo"
      (by decide) (by decide)).2 (by decide)

/-- The message paragraphs a git argument vector carries: the argument
following each `-m` option. -/
def gitMessageArgs : List String → List String
  | "-m" :: m :: rest => m :: gitMessageArgs rest
  | _ :: rest => gitMessageArgs rest
  | [] => []

/-- Modelled from the documented semantics of `git merge -m`/`git commit -m`:
when several `-m` options are given, their values are concatenated as
separate paragraphs, i.e. joined by blank lines. -/
def gitCommitMessage (msgs : List String) : String :=
  String.intercalate "\n\n" msgs

/-- The first line of a string: its characters up to the first newline. -/
def firstLine (s : String) : String :=
  String.mk (s.data.takeWhile (fun c => !(c == '\n')))

theorem takeWhile_append_all {α : Type} (p : α → Bool) (xs ys : List α)
    (h : ∀ x ∈ xs, p x = true) :
    (xs ++ ys).takeWhile p = xs ++ ys.takeWhile p := by
  induction xs with
  | nil => simp
  | cons a l ih =>
    simp [List.takeWhile_cons, h a (List.mem_cons_self a l),
      ih (fun y hy => h y (List.mem_cons_of_mem a hy))]

/-- The first line of a two-paragraph commit message is the whole first
paragraph, provided the first paragraph contains no newline. -/
theorem firstLine_two_paragraphs (m r : String) (hm : ∀ c ∈ m.data, (c == '\n') = false) :
    firstLine (gitCommitMessage [m, r]) = m := by
  have hmsg : gitCommitMessage [m, r] = m ++ "\n\n" ++ r := rfl
  have hdata : (m ++ "\n\n" ++ r).data = m.data ++ ('\n' :: '\n' :: r.data) := by
    rw [String.data_append, String.data_append, List.append_assoc]
    rfl
  unfold firstLine
  rw [hmsg, hdata, takeWhile_append_all _ m.data _ (fun x hx => by simp [hm x hx])]
  simp [List.takeWhile_cons]

/-- **C4.** The third command of the merge sequence is the no-fast-forward
merge of `origin/<branch>`, carrying exactly two `-m` paragraphs whose first
is `Merge <branch> to develop` — also the first line of the resulting commit
message whenever the branch name has no newline in it — and whose second is
`Branch merged by <invoking user>.`; the following (fourth) command amends
the commit with `--no-edit` (keep the message: it passes no `-m` at all) and
rewrites only the author via `--author=<resolved author>`. -/
theorem merge_commit_shape (b a u : String) (hb : ∀ c ∈ b.data, (c == '\n') = false) :
    (git_merge_argvs b a u).get? 2 =
      some ["merge", "--no-ff",
        "-m", "Merge " ++ b ++ " to develop",
        "-m", "Branch merged by " ++ u ++ ".",
        "origin/" ++ b]
    ∧ gitMessageArgs ["merge", "--no-ff",
        "-m", "Merge " ++ b ++ " to develop",
        "-m", "Branch merged by " ++ u ++ ".",
        "origin/" ++ b] =
      ["Merge " ++ b ++ " to develop", "Branch merged by " ++ u ++ "."]
    ∧ firstLine (gitCommitMessage
        ["Merge " ++ b ++ " to develop", "Branch merged by " ++ u ++ "."]) =
      "Merge " ++ b ++ " to develop"
    ∧ (git_merge_argvs b a u).get? 3 =
      some ["commit", "--no-edit", "--amend", "--author=" ++ a]
    ∧ gitMessageArgs ["commit", "--no-edit", "--amend", "--author=" ++ a] = []
    ∧ "--no-edit" ∈ ["commit", "--no-edit", "--amend", "--author=" ++ a]
    ∧ ("--author=" ++ a) ∈ ["commit", "--no-edit", "--amend", "--author=" ++ a] := by
  refine ⟨rfl, rfl, ?_, rfl, rfl, by simp, by simp⟩
  apply firstLine_two_paragraphs
  intro c hc
  have : ("Merge " ++ b ++ " to develop").data =
      "Merge ".data ++ (b.data ++ " to develop".data) := by
    rw [String.data_append, String.data_append, List.append_assoc]
  rw [this] at hc
  have hA : ∀ x ∈ "Merge ".data, (x == '\n') = false := by decide
  have hB : ∀ x ∈ " to develop".data, (x == '\n') = false := by decide
  rcases List.mem_append.mp hc with h1 | h2
  · exact hA c h1
  · rcases List.mem_append.mp h2 with h3 | h4
    · exact hb c h3
    · exact hB c h4

theorem merge_commit_shape_witness :
    (git_merge_argvs "feature-x" "Alice <alice@example.com>" "Jane Doe").get? 2 =
      some ["merge", "--no-ff",
        "-m", "Merge feature-x to develop",
        "-m", "Branch merged by Jane Doe.",
        "origin/feature-x"]
    ∧ gitMessageArgs ["merge", "--no-ff",
        "-m", "Merge feature-x to develop",
        "-m", "Branch merged by Jane Doe.",
        "origin/feature-x"] =
      ["Merge feature-x to develop", "Branch merged by Jane Doe."]
    ∧ firstLine (gitCommitMessage
        ["Merge feature-x to develop", "Branch merged by Jane Doe."]) =
      "Merge feature-x to develop"
    ∧ (git_merge_argvs "feature-x" "Alice <alice@example.com>" "Jane Doe").get? 3 =
      some ["commit", "--no-edit", "--amend", "--author=Alice <alice@example.com>"]
    ∧ gitMessageArgs
        ["commit", "--no-edit", "--amend", "--author=Alice <alice@example.com>"] = []
    ∧ "--no-edit" ∈ ["commit", "--no-edit", "--amend", "--author=Alice <alice@example.com>"]
    ∧ "--author=Alice <alice@example.com>" ∈
        ["commit", "--no-edit", "--amend", "--author=Alice <alice@example.com>"] :=
  merge_commit_shape "feature-x" "Alice <alice@example.com>" "Jane Doe" (by decide)

/-- Once the pruning fetch succeeds, `git_get_branch_author` always executes
exactly the fetch and the `for-each-ref` query, whatever its outcome. -/
theorem git_get_branch_author_trace (env : Env) (root b : String)
    (hf : env.exit ⟨["git", "fetch", "-p"], root⟩ = true) :
    (git_get_branch_author env root b).2 =
      [⟨["git", "fetch", "-p"], root⟩, ⟨for_each_ref_argv b, root⟩] := by
  simp only [git_get_branch_author]
  rw [if_pos hf]
  split_ifs <;> rfl

/-- **C5.** The author resolver never returns a malformed identity: every
value it returns is exactly one line and non-empty; when the stripped query
output is empty or spans several lines (and both commands ran), it raises
the `assert` failure instead of returning anything; and inside `merge` a
failing resolver aborts the run after only the four read-only commands
(fetch, rev-parse, fetch, for-each-ref) — no merge, commit or push command
is ever reached. -/
theorem author_format_invariant (env : Env) (cfg : Config) (root p b u : String) :
    (∀ s t, git_get_branch_author env root b = (Except.ok s, t) →
      (pySplit '\n' s.data).length = 1 ∧ s.length ≠ 0)
    ∧ ((¬ ((pySplit '\n' (pyStrip (env.output ⟨for_each_ref_argv b, root⟩)).data).length = 1
          ∧ (pyStrip (env.output ⟨for_each_ref_argv b, root⟩)).length ≠ 0)) →
        env.exit ⟨["git", "fetch", "-p"], root⟩ = true →
        env.exit ⟨for_each_ref_argv b, root⟩ = true →
        git_get_branch_author env root b =
          (Except.error Err.assertionError,
           [⟨["git", "fetch", "-p"], root⟩, ⟨for_each_ref_argv b, root⟩]))
    ∧ (∀ e, b ∉ cfg.forbidden_branches →
        env.exit ⟨["git", "fetch", "-p"], get_project_root cfg p⟩ = true →
        env.exit ⟨["git", "rev-parse", "--verify", "origin/" ++ b],
          get_project_root cfg p⟩ = true →
        (git_get_branch_author env (get_project_root cfg p) b).1 = Except.error e →
        merge env cfg p b u =
          (Except.error e,
           [⟨["git", "fetch", "-p"], get_project_root cfg p⟩,
            ⟨["git", "rev-parse", "--verify", "origin/" ++ b], get_project_root cfg p⟩,
            ⟨["git", "fetch", "-p"], get_project_root cfg p⟩,
            ⟨for_each_ref_argv b, get_project_root cfg p⟩])) := by
  refine ⟨?_, ?_, ?_⟩
  · intro s t h
    simp only [git_get_branch_author] at h
    split_ifs at h with h1 h2 h3
    · simp only [Prod.mk.injEq, Except.ok.injEq] at h
      exact h.1 ▸ h3
    · simp at h
    · simp at h
    · simp at h
  · intro hmal hf hr
    simp only [git_get_branch_author]
    rw [if_pos hf, if_pos hr, if_neg hmal]
  · intro e hb hf hr hauth
    have htrace := git_get_branch_author_trace env (get_project_root cfg p) b hf
    have hpair : git_get_branch_author env (get_project_root cfg p) b =
        (Except.error e,
         [⟨["git", "fetch", "-p"], get_project_root cfg p⟩,
          ⟨for_each_ref_argv b, get_project_root cfg p⟩]) := by
      rw [← hauth, ← htrace]
    have hval : validate_branch env cfg b (get_project_root cfg p) =
        (Except.ok (),
         [⟨["git", "fetch", "-p"], get_project_root cfg p⟩,
          ⟨["git", "rev-parse", "--verify", "origin/" ++ b], get_project_root cfg p⟩]) := by
      simp [validate_branch, hb, runGitSeq, hf, hr]
    simp only [merge, hval, hpair]
    rfl

/-- Modelled from git semantics: `git for-each-ref --format=<fmt>` prints,
for the matched ref, `fmt` with `%(authorname)` replaced by the author
display name and `%(authoremail)` replaced by the author email wrapped in
angle brackets, followed by a newline.  The double quotes inside
`for_each_ref_format` are printed literally: `subprocess.run` passes the
argument list straight to exec, so no shell ever strips them. -/
def for_each_ref_output (authorname authoremail : String) : String :=
  "\"" ++ authorname ++ " <" ++ authoremail ++ ">\"" ++ "\n"

/-- An environment in which every command succeeds and the branch
`feature-1` exists on origin with tip author Alice <alice@example.com>. -/
def envAlice : Env :=
  { exit := fun _ => true,
    output := fun c =>
      if c.args = for_each_ref_argv "feature-1"
      then for_each_ref_output "Alice" "alice@example.com"
      else "" }

/-- **C6** (code bug).  At the failing input — branch `feature-1` present on
origin with tip author `Alice <alice@example.com>` — the resolver returns
the line still wrapped in the literal double quotes of its `--format`
argument, not the form `Name <email>` with no surrounding characters that
the claim (and the docstring of `git_get_branch_author` itself,
merge.py:201) promises. -/
theorem author_resolver_quotes_bug :
    git_get_branch_author envAlice "/home/web/repos/demo" "feature-1" =
      (Except.ok "\"Alice <alice@example.com>\"",
       [⟨["git", "fetch", "-p"], "/home/web/repos/demo"⟩,
        ⟨for_each_ref_argv "feature-1", "/home/web/repos/demo"⟩])
    ∧ "\"Alice <alice@example.com>\"" ≠ "Alice" ++ " <" ++ "alice@example.com" ++ ">" := by
  refine ⟨by rfl, by decide⟩

/-- **C7.** Provisioning is idempotent and its error handling is exactly
asymmetric: with a healthy filesystem, provisioning a configured project
whose clone is missing performs exactly one `git clone` and a second run is
a no-op that does not error; a directory-already-exists failure from
creating the storage root is swallowed (the run still succeeds); any other
`OSError` from the directory creation is re-raised and aborts before any
clone.  The hypotheses of the first part say that the clone of `url`
creates the directory the code checks for (the configured name) and exclude
the degenerate case where the project path coincides with the root. -/
theorem setup_repos_provisioning (env : SetupEnv) (cfg : Config) (fs : FSState)
    (name url : String) :
    (env.mkdirErr = none → cfg.projects = [(name, url)] → env.cloneOk url = true →
      env.cloneDir url = name → os_path_join cfg.repos_root name ∉ fs.dirs →
      os_path_join cfg.repos_root name ≠ cfg.repos_root →
      ∃ fs1, setup_repos env cfg fs =
          (Except.ok fs1, [⟨["git", "clone", url], cfg.repos_root⟩])
        ∧ setup_repos env cfg fs1 = (Except.ok fs1, []))
    ∧ (env.mkdirErr = none → cfg.repos_root ∈ fs.dirs → cfg.projects = [] →
        setup_repos env cfg fs = (Except.ok fs, []))
    ∧ (∀ e, env.mkdirErr = some e → e ≠ EEXIST →
        setup_repos env cfg fs = (Except.error (Err.osError e), [])) := by
  refine ⟨?_, ?_, ?_⟩
  · intro h1 h2 h3 h4 h5 h6
    by_cases hroot : cfg.repos_root ∈ fs.dirs
    · refine ⟨⟨os_path_join cfg.repos_root name :: fs.dirs⟩, ?_, ?_⟩
      · simp [setup_repos, os_makedirs, h1, h2, h3, h4, clone_loop, hroot, h5]
      · simp [setup_repos, os_makedirs, h1, h2, h3, h4, clone_loop, List.mem_cons, hroot]
    · have hnotin : os_path_join cfg.repos_root name ∉ cfg.repos_root :: fs.dirs := by
        simp [List.mem_cons, h5, h6]
      refine ⟨⟨os_path_join cfg.repos_root name :: cfg.repos_root :: fs.dirs⟩, ?_, ?_⟩
      · simp [setup_repos, os_makedirs, h1, h2, h3, h4, clone_loop, hroot, hnotin]
      · simp [setup_repos, os_makedirs, h1, h2, h3, h4, clone_loop, List.mem_cons]
  · intro h1 h2 h3
    simp [setup_repos, os_makedirs, h1, h2, h3, clone_loop]
  · intro e h1 h2
    simp [setup_repos, os_makedirs, h1, h2]

/-- **C8** (amended).  The working-copy root the orchestrator uses is the
plain string concatenation `REPOS_ROOT ++ name`, with no separator
inserted; it coincides with the `os.path.join(REPOS_ROOT, name)` path that
the provisioner checks for existence exactly when `REPOS_ROOT` already ends
with the path separator (and the project name does not start with one). -/
theorem project_root_concatenation (cfg : Config) (n : String) :
    get_project_root cfg n = cfg.repos_root ++ n
    ∧ (cfg.repos_root.data.getLast? = some '/' → n.data.head? ≠ some '/' →
        get_project_root cfg n = os_path_join cfg.repos_root n) := by
  refine ⟨rfl, fun h1 h2 => ?_⟩
  unfold get_project_root os_path_join
  rw [if_neg h2, if_pos (Or.inr h1)]

/-- **C8** counterexample: with `REPOS_ROOT = "/repos"` (no trailing slash)
and project name `demo`, the orchestrator works in `/reposdemo` while the
provisioner checks `/repos/demo` — the claimed equality with the
separator-joined path fails. -/
theorem project_root_counterexample :
    get_project_root
        { repos_root := "/repos", forbidden_branches := [], projects := [] } "demo"
      = "/reposdemo"
    ∧ os_path_join "/repos" "demo" = "/repos/demo"
    ∧ ("/reposdemo" : String) ≠ "/repos/demo" :=
  ⟨rfl, by decide, by decide⟩

/-- **C9.** On the success path of the `merge` command, the full trace shows
`git push origin develop` executed exactly twice — once as the last step of
`git_merge_branch_to_develop` and once by `git_push_develop_to_origin` —
and the branch deletion is the last command, after both pushes. -/
theorem push_develop_twice (env : Env) (cfg : Config) (p b u : String)
    (hb : b ∉ cfg.forbidden_branches)
    (hall : ∀ c, env.exit c = true)
    (hout : (pySplit '\n'
        (pyStrip (env.output ⟨for_each_ref_argv b, get_project_root cfg p⟩)).data).length = 1
      ∧ (pyStrip (env.output ⟨for_each_ref_argv b, get_project_root cfg p⟩)).length ≠ 0) :
    merge env cfg p b u =
      (Except.ok (Card.green ("I was able to complete the " ++ p ++ " merge for you.")
        [("Receiver Branch", "develop"), ("Giver Branch", b)]),
       [⟨["git", "fetch", "-p"], get_project_root cfg p⟩,
        ⟨["git", "rev-parse", "--verify", "origin/" ++ b], get_project_root cfg p⟩,
        ⟨["git", "fetch", "-p"], get_project_root cfg p⟩,
        ⟨for_each_ref_argv b, get_project_root cfg p⟩,
        ⟨["git", "fetch", "-p"], get_project_root cfg p⟩,
        ⟨["git", "checkout", "-B", "develop", "origin/develop"], get_project_root cfg p⟩,
        ⟨["git", "merge", "--no-ff",
          "-m", "Merge " ++ b ++ " to develop",
          "-m", "Branch merged by " ++ u ++ ".",
          "origin/" ++ b], get_project_root cfg p⟩,
        ⟨["git", "commit", "--no-edit", "--amend",
          "--author=" ++ pyStrip (env.output ⟨for_each_ref_argv b, get_project_root cfg p⟩)],
          get_project_root cfg p⟩,
        ⟨["git", "push", "origin", "develop"], get_project_root cfg p⟩,
        ⟨["git", "push", "origin", "develop"], get_project_root cfg p⟩,
        ⟨["git", "push", "origin", "--delete", b], get_project_root cfg p⟩])
    ∧ (merge env cfg p b u).2.countP
        (fun c => c.args == ["git", "push", "origin", "develop"]) = 2
    ∧ (merge env cfg p b u).2.getLast? =
        some ⟨["git", "push", "origin", "--delete", b], get_project_root cfg p⟩ := by
  have hval : validate_branch env cfg b (get_project_root cfg p) =
      (Except.ok (),
       [⟨["git", "fetch", "-p"], get_project_root cfg p⟩,
        ⟨["git", "rev-parse", "--verify", "origin/" ++ b], get_project_root cfg p⟩]) := by
    simp [validate_branch, hb, runGitSeq, hall]
  have hauth : git_get_branch_author env (get_project_root cfg p) b =
      (Except.ok (pyStrip (env.output ⟨for_each_ref_argv b, get_project_root cfg p⟩)),
       [⟨["git", "fetch", "-p"], get_project_root cfg p⟩,
        ⟨for_each_ref_argv b, get_project_root cfg p⟩]) := by
    simp only [git_get_branch_author]
    rw [if_pos (hall _), if_pos (hall _), if_pos hout]
  have horch : orchestrate env (get_project_root cfg p) b
      (pyStrip (env.output ⟨for_each_ref_argv b, get_project_root cfg p⟩)) u =
      (Except.ok (), gitCmds (get_project_root cfg p)
        (merge_sequence_argvs b
          (pyStrip (env.output ⟨for_each_ref_argv b, get_project_root cfg p⟩)) u)) := by
    rw [orchestrate_eq_runGitSeq]
    exact runGitSeq_all_ok env (get_project_root cfg p) _ hall
  have hm : merge env cfg p b u =
      (Except.ok (Card.green ("I was able to complete the " ++ p ++ " merge for you.")
        [("Receiver Branch", "develop"), ("Giver Branch", b)]),
       [⟨["git", "fetch", "-p"], get_project_root cfg p⟩,
        ⟨["git", "rev-parse", "--verify", "origin/" ++ b], get_project_root cfg p⟩,
        ⟨["git", "fetch", "-p"], get_project_root cfg p⟩,
        ⟨for_each_ref_argv b, get_project_root cfg p⟩,
        ⟨["git", "fetch", "-p"], get_project_root cfg p⟩,
        ⟨["git", "checkout", "-B", "develop", "origin/develop"], get_project_root cfg p⟩,
        ⟨["git", "merge", "--no-ff",
          "-m", "Merge " ++ b ++ " to develop",
          "-m", "Branch merged by " ++ u ++ ".",
          "origin/" ++ b], get_project_root cfg p⟩,
        ⟨["git", "commit", "--no-edit", "--amend",
          "--author=" ++ pyStrip (env.output ⟨for_each_ref_argv b, get_project_root cfg p⟩)],
          get_project_root cfg p⟩,
        ⟨["git", "push", "origin", "develop"], get_project_root cfg p⟩,
        ⟨["git", "push", "origin", "develop"], get_project_root cfg p⟩,
        ⟨["git", "push", "origin", "--delete", b], get_project_root cfg p⟩]) := by
    simp only [merge, hval, hauth, horch]
    rfl
  exact ⟨hm, by rw [hm]; rfl, by rw [hm]; rfl⟩

theorem push_develop_twice_witness :
    (merge envAlice cfgDemo "demo" "feature-1" "Bob").2.countP
      (fun c => c.args == ["git", "push", "origin", "develop"]) = 2 :=
  (push_develop_twice envAlice cfgDemo "demo" "feature-1" "Bob" (by decide)
    (fun _ => rfl) (by decide)).2.1

theorem popKey_dictGet (k : String) (l : List (String × Val)) (v : Val)
    (rest : List (String × Val)) (h : popKey k l = some (v, rest)) :
    dictGet k l = some v := by
  induction l generalizing v rest with
  | nil => simp [popKey] at h
  | cons kv tl ih =>
    obtain ⟨k2, v2⟩ := kv
    by_cases hk : (k2 == k) = true
    · simp only [popKey, hk, if_true, Option.some.injEq, Prod.mk.injEq] at h
      simp [dictGet, hk, h.1]
    · simp only [popKey, hk, if_false, Bool.false_eq_true] at h
      cases hp : popKey k tl with
      | none => rw [hp] at h; simp at h
      | some pr =>
        obtain ⟨v3, rest3⟩ := pr
        rw [hp] at h
        simp only [Option.some.injEq, Prod.mk.injEq] at h
        simp only [dictGet, hk, if_false, Bool.false_eq_true]
        rw [← h.1]
        exact ih v3 rest3 hp

/-- **C10.** `check_configuration` raises the `ValidationException` about
the missing `projects` key for every mapping that lacks one (and the
caller's mapping is untouched, since the failed `pop` removes nothing); on
success the caller's mapping still holds its original `projects` value
(popped at the start and re-inserted by the final `update`); but when an
individual project entry fails the structure check, the caller's mapping is
left exactly as the remainder after the `pop` — its `projects` key has been
removed and never restored, so the error path is not atomic. -/
theorem check_configuration_behavior (env : CheckEnv) (conf : List (String × Val)) :
    (popKey "projects" conf = none →
      check_configuration env conf =
        (Except.error (Err.validationException
          "Your configuration must include a projects key with at least one project configured."),
         conf))
    ∧ (∀ v rest, popKey "projects" conf = some (v, rest) →
        (check_configuration env conf).1 = Except.ok () →
        dictGet "projects" conf = some v
          ∧ ("projects", v) ∈ (check_configuration env conf).2)
    ∧ (∀ pc rest msg, popKey "projects" conf = some (Val.vdict pc, rest) →
        env.recurse (Val.vdict [("REPOS_ROOT", Val.str "/home/web/repos/"),
            ("forbidden_branches", Val.vlist [Val.str "master", Val.str "develop"])])
          (Val.vdict rest) = none →
        check_projects env (Val.str "git@github.com:netquity/some-project.git") pc = some msg →
        check_configuration env conf =
          (Except.error (Err.validationException msg), rest)) := by
  have htm : popKey "projects" get_configuration_template =
      some (Val.vdict [("some-project", Val.str "git@github.com:netquity/some-project.git")],
        [("REPOS_ROOT", Val.str "/home/web/repos/"),
         ("forbidden_branches", Val.vlist [Val.str "master", Val.str "develop"])]) := rfl
  refine ⟨?_, ?_, ?_⟩
  · intro h
    simp only [check_configuration, htm, h]
  · intro v rest h hok
    simp only [check_configuration, htm, h] at hok ⊢
    cases hrec : env.recurse
        (Val.vdict [("REPOS_ROOT", Val.str "/home/web/repos/"),
          ("forbidden_branches", Val.vlist [Val.str "master", Val.str "develop"])])
        (Val.vdict rest) with
    | some msg => simp [hrec] at hok
    | none =>
      cases v with
      | str s => simp [hrec] at hok
      | vlist l => simp [hrec] at hok
      | vdict pc =>
        cases hcp : check_projects env
            (Val.str "git@github.com:netquity/some-project.git") pc with
        | some msg => simp [dictGet, hrec, hcp] at hok
        | none =>
          refine ⟨popKey_dictGet "projects" conf (Val.vdict pc) rest h, ?_⟩
          simp [dictGet, hrec, hcp]
  · intro pc rest msg h hrec hcp
    simp only [check_configuration, htm, h, hrec]
    simp [dictGet, hcp]

end ErrGithubMerger
